import Mathlib

/-!
Verification of the Resource Lock Manager of the smart-updater repository.

The embedding below models the two files that carry the locking logic:

* `src/process_helper.py` — `_ResourceLock` (a subclass of `filelock.FileLock`),
  its observer `CLIResourceCallbackHandler`, and the `ResourceLock` enum with its
  bulk context manager `all_acquired`;
* `src/synchronisation.py` — the `acquires_lock` decorator factory.

The `filelock.FileLock` base class is an external dependency whose source is not
part of the repository; its retry loop, reentrant counter and release behaviour
are modelled from the specification (section 4.1), and each such definition says
so in its doc comment.  Everything else is translated from the repository source.

OS-level nondeterminism (whether a non-blocking lock attempt succeeds) is made
explicit: an acquisition call receives a list of Booleans, one per non-blocking
attempt the OS would answer, `true` meaning the flock succeeded.  Callbacks are
modelled as events recorded in a trace, since their observable content (console
output) is irrelevant to every claim; the one behavioural bit of an observer,
`terminate_after_initial_failure`, is kept as data.
-/

namespace SmartUpdater

/-- Failures of the mutex layer.  `termination` is `TerminationAfterInitialFailure`
(src/process_helper.py lines 26-27), `timeout` is the `LockTimeout` of the spec
(deadline elapsed while retrying), `notHeld` is the spec's `NotHeld` release error. -/
inductive LockError where
  | termination
  | timeout
  | notHeld
deriving DecidableEq, Repr

/-- Observable behaviour of a `ResourceLockCallbackHandler`: the two callbacks are
recorded as trace events, so the only datum kept is the termination flag
(src/process_helper.py lines 37-41). -/
structure Observer where
  terminate_after_initial_failure : Bool
deriving DecidableEq, Repr

/-- The `CLIResourceCallbackHandler` (src/process_helper.py lines 52-66): its
`terminate_after_initial_failure` property constantly returns `False`. -/
def cliObserver : Observer := { terminate_after_initial_failure := false }

/-- Callback events emitted during one `acquire` call.  `initialFailure` and
`successAfterInitialFailure` are invocations of the observer's callbacks;
`terminationCheck` records one evaluation of the
`terminate_after_initial_failure` property in `_ResourceLock._acquire`
(src/process_helper.py line 133). -/
inductive CallbackEvent where
  | initialFailure
  | terminationCheck
  | successAfterInitialFailure
deriving DecidableEq, Repr

/-- Result of running the retry loop of one `acquire` call: the callback events
emitted, the list of OS-level attempt outcomes actually consumed (in order),
the final value of the `__initial_failure_to_acquire_handled` flag, and the
outcome of the loop. -/
structure AttemptResult where
  events : List CallbackEvent
  consumed : List Bool
  handled : Bool
  outcome : Except LockError Unit
deriving Repr

/-- Retry loop of one `acquire` call on a lock that is not yet held.

The surrounding while-loop is the `FileLock.acquire` polling loop, modelled from
the spec (section 4.1): attempt a non-blocking OS lock, return on success,
otherwise retry after a bounded backoff; when the caller's deadline elapses
before any attempt succeeds, that is the exhaustion of the attempt list and the
call fails with `timeout`.

The body of each iteration is translated from `_ResourceLock._acquire`
(src/process_helper.py lines 117-134): after the OS attempt, if the lock was
captured or the initial failure was already handled, return to the loop;
otherwise set the handled flag, invoke `initial_failure`, and consult
`terminate_after_initial_failure`, raising `TerminationAfterInitialFailure`
when it is true. -/
def acquireAttempts (obs : Observer) : Bool → List Bool → AttemptResult
  | handled, [] => ⟨[], [], handled, .error .timeout⟩
  | handled, ok :: rest =>
    if ok then
      ⟨[], [true], handled, .ok ()⟩
    else if handled then
      let r := acquireAttempts obs handled rest
      ⟨r.events, false :: r.consumed, r.handled, r.outcome⟩
    else if obs.terminate_after_initial_failure then
      ⟨[.initialFailure, .terminationCheck], [false], true, .error .termination⟩
    else
      let r := acquireAttempts obs true rest
      ⟨.initialFailure :: .terminationCheck :: r.events, false :: r.consumed, r.handled, r.outcome⟩

/-- Process-local state of one mutex: the reentrant depth (the base class's lock
counter) and whether the OS-level lock is currently held by this process.
Modelled from the spec: `FileBackedMutex state` in section 3 (`reentrant-depth`
integer >= 0, underlying OS lock handle). -/
structure MutexState where
  depth : Nat
  osHeld : Bool
deriving DecidableEq, Repr

/-- A mutex nobody holds. -/
def freeState : MutexState := { depth := 0, osHeld := false }

/-- Result of one full `acquire` call: callback events, consumed OS attempts,
and either the new mutex state or the propagated failure. -/
structure AcquireResult where
  events : List CallbackEvent
  consumed : List Bool
  result : Except LockError MutexState
deriving Repr

/-- One full call to `_ResourceLock.acquire` (src/process_helper.py lines
100-115): reset the `__initial_failure_to_acquire_handled` flag, run the parent
class's acquire, and if the flag was set during the call invoke
`success_after_initial_failure` after the parent's acquire returns.

The parent `FileLock.acquire` around it is modelled from the spec (sections 3
and 4.1): reentrancy — when the process already holds the OS lock the call
succeeds immediately, consuming no OS attempts, and merely increments the
reentrant depth; otherwise the retry loop `acquireAttempts` runs and a
successful loop sets the depth to one above its previous value with the OS
lock held. -/
def acquireM (obs : Observer) (atts : List Bool) (s : MutexState) : AcquireResult :=
  if s.osHeld then
    ⟨[], [], .ok { depth := s.depth + 1, osHeld := true }⟩
  else
    let r := acquireAttempts obs false atts
    match r.outcome with
    | .ok _ =>
      ⟨r.events ++ (if r.handled then [.successAfterInitialFailure] else []),
        r.consumed, .ok { depth := s.depth + 1, osHeld := true }⟩
    | .error e => ⟨r.events, r.consumed, .error e⟩

/-- Modelled from the spec: `release` of `FileBackedMutex` (section 4.1 —
"Fails with `NotHeld` if called without a matching `acquire` by the same
logical holder (reentrant-depth would go negative)") and section 3 — the
OS-level lock is released exactly when the depth returns to zero. -/
def release (s : MutexState) : Except LockError MutexState :=
  if s.depth = 0 then .error .notHeld
  else
    let d := s.depth - 1
    .ok { depth := d, osHeld := if d = 0 then false else s.osHeld }

/-- Iterated acquisition: `n` successive `acquire` calls, each given one
immediately successful OS attempt; any failure propagates. -/
def acquireN (obs : Observer) : Nat → MutexState → Except LockError MutexState
  | 0, s => .ok s
  | n + 1, s =>
    match (acquireM obs [true] s).result with
    | .ok s1 => acquireN obs n s1
    | .error e => .error e

/-- Iterated release: `n` successive `release` calls; any failure propagates. -/
def releaseN : Nat → MutexState → Except LockError MutexState
  | 0, s => .ok s
  | n + 1, s =>
    match release s with
    | .ok s1 => releaseN n s1
    | .error e => .error e

/-- Lock-file extension, `_ResourceLock.EXTENSION` (src/process_helper.py line 81). -/
def EXTENSION : String := ".lock"

/-- Default parent directory for lock files, `_ResourceLock.DEFAULT_PARENT_DIRECTORY`
(src/process_helper.py line 80): `Path(tempfile.gettempdir(), "krake")`.  The
temporary directory reported by the OS is a parameter. -/
def DEFAULT_PARENT_DIRECTORY (tmpdir : String) : String := tmpdir ++ "/krake"

/-- The attributes `_ResourceLock.__init__` computes on a new instance
(src/process_helper.py lines 83-98): the lock name, the callback handler, and
the resolved lock-file path.  The directory creation and the best-effort
`chmod` are filesystem side effects with no bearing on these attributes. -/
structure ResourceLockInstance where
  name : String
  callback_handler : Observer
  lock_file_path : String
deriving DecidableEq, Repr

/-- Translation of `_ResourceLock.__init__` (src/process_helper.py lines 83-98):
the handler is a fresh `CLIResourceCallbackHandler`, the directory is the
override when given and `DEFAULT_PARENT_DIRECTORY` otherwise, and the lock-file
path is `directory.joinpath(name + EXTENSION)`. -/
def mkResourceLock (tmpdir : String) (name : String) (parent_directory : Option String) :
    ResourceLockInstance :=
  let directory := parent_directory.getD (DEFAULT_PARENT_DIRECTORY tmpdir)
  { name := name
    callback_handler := cliObserver
    lock_file_path := directory ++ "/" ++ name ++ EXTENSION }

/-- Path derivation following the spec's words (section 3): "each name maps to
exactly one lock-file path, derived as `<parent-directory>/<name><extension>`".
Stated separately from `mkResourceLock` so the two can be compared. -/
def specLockFilePath (parentDirectory name extension : String) : String :=
  parentDirectory ++ "/" ++ name ++ extension

/-- Members of the `ResourceLock` enum (src/process_helper.py lines 137-152).
`KRAKE` is the spec's general-purpose lock `GENERAL`, `INI` its `CONFIG_FILE`,
`CACHE` its `CACHE_FILE`. -/
inductive LockName where
  | KRAKE
  | TARGET_INTERACTION
  | INI
  | CACHE
  | LOG_DIRECTORY
deriving DecidableEq, Repr

/-- Name string each enum member passes to `_ResourceLock`
(src/process_helper.py lines 148-152). -/
def LockName.str : LockName → String
  | .KRAKE => "KRAKE"
  | .TARGET_INTERACTION => "TARGET_INTERACTION"
  | .INI => "INI"
  | .CACHE => "CACHE"
  | .LOG_DIRECTORY => "LOG_DIRECTORY"

/-- Enumeration order of the `ResourceLock` enum: Python enums iterate in
definition order (src/process_helper.py lines 148-152). -/
def registryOrder : List LockName :=
  [.KRAKE, .TARGET_INTERACTION, .INI, .CACHE, .LOG_DIRECTORY]

/-- The singleton `_ResourceLock` instance held by an enum member: constructed
with the member's name and no parent-directory override
(src/process_helper.py lines 148-152). -/
def registryLock (tmpdir : String) (n : LockName) : ResourceLockInstance :=
  mkResourceLock tmpdir n.str none

/-- Events of one `all_acquired` call: a successful acquisition of a lock, a
failed acquisition attempt, and a release. -/
inductive BulkEvent where
  | acq (n : LockName)
  | acqFailed (n : LockName)
  | rel (n : LockName)
deriving DecidableEq, Repr

/-- Outcome of one `all_acquired` call: the body's value, a lock-acquisition
failure propagated out of the `ExitStack`, or the body's failure propagated. -/
inductive BulkOutcome where
  | completed
  | lockFailure
  | bodyFailure
deriving DecidableEq, Repr

/-- Entry phase of `all_acquired` (src/process_helper.py lines 154-161): the
`for lock in cls` loop enters each lock's context in enumeration order via
`exit_stack.enter_context`.  `env` says whether acquiring a given lock
succeeds; `acc` accumulates the locks acquired so far, most recent first.
Returns the event trace of the phase, the final accumulator, and whether every
acquisition succeeded.  Modelled from the spec for the `ExitStack` part
(section 4.4): a failing intermediate acquisition stops the loop and the
failure propagates after unwinding. -/
def enterLoop (env : LockName → Bool) : List LockName → List LockName →
    List BulkEvent × List LockName × Bool
  | [], acc => ([], acc, true)
  | n :: rest, acc =>
    if env n then
      let r := enterLoop env rest (n :: acc)
      (BulkEvent.acq n :: r.1, r.2)
    else
      ([BulkEvent.acqFailed n], acc, false)

/-- One call to `ResourceLock.all_acquired` (src/process_helper.py lines
154-161) around a body that completes or fails.  The `ExitStack` unwinds the
contexts entered so far — releasing those locks most recent first — both when
an `enter_context` call fails and when the body finishes, and propagates the
pending failure.  The `ExitStack` unwinding itself is modelled from the spec
(section 4.4). -/
def allAcquired (env : LockName → Bool) (bodyFails : Bool) :
    List BulkEvent × BulkOutcome :=
  let r := enterLoop env registryOrder []
  let releases := r.2.1.map BulkEvent.rel
  if r.2.2 then
    (r.1 ++ releases, if bodyFails then .bodyFailure else .completed)
  else
    (r.1 ++ releases, .lockFailure)

/-- Locks acquired according to a bulk-event trace, in acquisition order. -/
def acqNames (tr : List BulkEvent) : List LockName :=
  tr.filterMap fun e =>
    match e with
    | .acq n => some n
    | _ => none

/-- Locks released according to a bulk-event trace, in release order. -/
def relNames (tr : List BulkEvent) : List LockName :=
  tr.filterMap fun e =>
    match e with
    | .rel n => some n
    | _ => none

/-- Steps of one call to a function wrapped by `acquires_lock`. -/
inductive ScopedStep where
  | stepAcquire
  | stepRun
  | stepRelease
deriving DecidableEq, Repr

/-- One call to the `inner` wrapper produced by the `acquires_lock` decorator
(src/synchronisation.py lines 59-73): `with lock.value: return function(*args,
**kwargs)`.  The context manager protocol — enter acquires, exit releases on
both the normal and the failing path, the body's failure propagates unchanged —
is modelled from the spec (section 4.3).  The wrapped work is `f` applied to
`x`, returning a value or failing with an error of type `ε`; `atts` are the OS
attempt outcomes offered to the acquisition.  Returns the step trace, the final
mutex state, and the call's outcome: the work's result, or a lock failure. -/
def scopedInner {α β ε : Type} (atts : List Bool) (s : MutexState)
    (f : α → Except ε β) (x : α) :
    List ScopedStep × MutexState × Except (LockError ⊕ ε) β :=
  match (acquireM cliObserver atts s).result with
  | .error e => ([], s, .error (Sum.inl e))
  | .ok s1 =>
    let r := f x
    match release s1 with
    | .error e2 => ([.stepAcquire, .stepRun], s1, .error (Sum.inl e2))
    | .ok s2 =>
      ([.stepAcquire, .stepRun, .stepRelease], s2,
        match r with
        | .ok b => .ok b
        | .error e => .error (Sum.inr e))

/-- A Python value as the decorator factory sees its positional argument: its
truthiness (what `not wrapped_function` tests) and whether it is callable
(what `callable(wrapped_function)` tests). -/
structure PyValue where
  truthy : Bool
  invocable : Bool
deriving DecidableEq, Repr

/-- What a call to the `acquires_lock` factory returns or raises at wrap time. -/
inductive WrapOutcome where
  | outerFactory
  | wrappedFunction
  | raisedUsageError
deriving DecidableEq, Repr

/-- Dispatch of the `acquires_lock` factory (src/synchronisation.py lines
75-83), translated branch for branch: `if not wrapped_function: return outer`;
`if not callable(wrapped_function): raise TestImplementationError(...)` (the
raise happens before any lock is touched; the name `TestImplementationError`
is unresolved in the source, so what actually escapes at runtime is the
lookup's `NameError` — still an error raised at wrap time); otherwise
`return outer(wrapped_function)`.  No branch touches a mutex, which the
unchanged `world` state records. -/
def acquiresLock (arg : Option PyValue) (world : MutexState) :
    WrapOutcome × MutexState :=
  match arg with
  | none => (.outerFactory, world)
  | some v =>
    if !v.truthy then (.outerFactory, world)
    else if !v.invocable then (.raisedUsageError, world)
    else (.wrappedFunction, world)

/-- True exactly on the `TerminationAfterInitialFailure` outcome. -/
def isTerminationError {α : Type} : Except LockError α → Bool
  | .error .termination => true
  | _ => false

/-! ### Lemmas about the retry loop -/

/-- Once the initial failure has been handled, later iterations of the loop
emit no further callback events and leave the flag set. -/
lemma acquireAttempts_handled (obs : Observer) (atts : List Bool) :
    (acquireAttempts obs true atts).events = [] ∧
    (acquireAttempts obs true atts).handled = true := by
  induction atts with
  | nil => simp [acquireAttempts]
  | cons ok rest ih =>
    by_cases h : ok = true
    · simp [acquireAttempts, h]
    · simp only [Bool.not_eq_true] at h
      simp [acquireAttempts, h, ih]

/-- The retry loop never emits `successAfterInitialFailure`: that callback is
invoked only by the outer `acquire` after the loop returns. -/
lemma acquireAttempts_no_successAfter (obs : Observer) (handled : Bool) (atts : List Bool) :
    CallbackEvent.successAfterInitialFailure ∉ (acquireAttempts obs handled atts).events := by
  induction atts generalizing handled with
  | nil => simp [acquireAttempts]
  | cons ok rest ih =>
    by_cases h : ok = true
    · simp [acquireAttempts, h]
    · simp only [Bool.not_eq_true] at h
      by_cases hh : handled = true
      · simp [acquireAttempts, h, hh, ih]
      · simp only [Bool.not_eq_true] at hh
        by_cases ht : obs.terminate_after_initial_failure = true
        · simp [acquireAttempts, h, hh, ht]
        · simp only [Bool.not_eq_true] at ht
          simp [acquireAttempts, h, hh, ht, ih]

/-- Starting with the flag clear, the loop emits `initialFailure` — and
evaluates the termination flag — exactly once when some consumed attempt
failed and never otherwise, and the final flag records whether a failure
occurred. -/
lemma acquireAttempts_counts (obs : Observer) (atts : List Bool) :
    (acquireAttempts obs false atts).events.count CallbackEvent.initialFailure
      = (if false ∈ (acquireAttempts obs false atts).consumed then 1 else 0) ∧
    (acquireAttempts obs false atts).events.count CallbackEvent.terminationCheck
      = (if false ∈ (acquireAttempts obs false atts).consumed then 1 else 0) ∧
    ((acquireAttempts obs false atts).handled = true ↔
      false ∈ (acquireAttempts obs false atts).consumed) := by
  cases atts with
  | nil => simp [acquireAttempts]
  | cons ok rest =>
    by_cases h : ok = true
    · simp [acquireAttempts, h]
    · simp only [Bool.not_eq_true] at h
      by_cases ht : obs.terminate_after_initial_failure = true
      · simp [acquireAttempts, h, ht, List.count_cons]
      · simp only [Bool.not_eq_true] at ht
        have hrec := acquireAttempts_handled obs rest
        simp [acquireAttempts, h, ht, hrec.1, hrec.2, List.count_cons]

/-- With a non-terminating observer the loop can fail only by timeout. -/
lemma acquireAttempts_no_termination (obs : Observer)
    (hobs : obs.terminate_after_initial_failure = false) (handled : Bool) (atts : List Bool) :
    isTerminationError (acquireAttempts obs handled atts).outcome = false := by
  induction atts generalizing handled with
  | nil => simp [acquireAttempts, isTerminationError]
  | cons ok rest ih =>
    by_cases h : ok = true
    · simp [acquireAttempts, h, isTerminationError]
    · simp only [Bool.not_eq_true] at h
      by_cases hh : handled = true
      · simp [acquireAttempts, h, hh, ih]
      · simp only [Bool.not_eq_true] at hh
        simp [acquireAttempts, h, hh, hobs, ih]

/-! ### Claim theorems: callback discipline -/

/-- C4: within one call to `acquire`, however many non-blocking attempts it
retries, `initial_failure` and the evaluation of
`terminate_after_initial_failure` happen exactly once when some attempt of
that call failed and never otherwise (so at most once, and never again on
later retries), and `success_after_initial_failure` is invoked exactly when
the call succeeds after at least one failed attempt. -/
theorem acquire_callbacks_fire_once (obs : Observer) (atts : List Bool) (s : MutexState) :
    (acquireM obs atts s).events.count CallbackEvent.initialFailure
      = (if false ∈ (acquireM obs atts s).consumed then 1 else 0) ∧
    (acquireM obs atts s).events.count CallbackEvent.terminationCheck
      = (if false ∈ (acquireM obs atts s).consumed then 1 else 0) ∧
    (CallbackEvent.successAfterInitialFailure ∈ (acquireM obs atts s).events ↔
      (∃ s1, (acquireM obs atts s).result = Except.ok s1) ∧
        false ∈ (acquireM obs atts s).consumed) := by
  by_cases hheld : s.osHeld = true
  · simp [acquireM, hheld]
  · simp only [Bool.not_eq_true] at hheld
    have hc := acquireAttempts_counts obs atts
    have hns := acquireAttempts_no_successAfter obs false atts
    simp only [acquireM, hheld, Bool.false_eq_true, if_false]
    cases hout : (acquireAttempts obs false atts).outcome with
    | ok u =>
      by_cases hh : (acquireAttempts obs false atts).handled = true
      · have hmem := (hc.2.2).mp hh
        simp [hout, hh, hmem, List.count_append, hc.1, hc.2.1,
          List.count_eq_zero_of_not_mem hns]
      · simp only [Bool.not_eq_true] at hh
        have hmem : ¬ false ∈ (acquireAttempts obs false atts).consumed := by
          intro hm
          exact absurd ((hc.2.2).mpr hm) (by simp [hh])
        simp [hout, hh, hmem, hc.1, hc.2.1, hns]
    | error e =>
      simp [hout, hc.1, hc.2.1, hns]

/-- C5: with an observer whose `terminate_after_initial_failure` is true, an
`acquire` call on an unheld mutex whose first OS attempt fails consumes exactly
that one attempt, invokes `initial_failure` (before the failure escapes,
followed only by the termination-flag check), and fails with
`TerminationAfterInitialFailure` — no retry happens. -/
theorem terminate_after_first_failure_aborts (obs : Observer) (rest : List Bool)
    (s : MutexState) (hterm : obs.terminate_after_initial_failure = true)
    (hfree : s.osHeld = false) :
    acquireM obs (false :: rest) s =
      ⟨[CallbackEvent.initialFailure, CallbackEvent.terminationCheck], [false],
        Except.error LockError.termination⟩ := by
  simp [acquireM, hfree, acquireAttempts, hterm]

/-- Witness for `terminate_after_first_failure_aborts` at a concrete observer,
attempt list and state. -/
theorem terminate_after_first_failure_aborts_witness :
    acquireM ⟨true⟩ (false :: [true, true]) freeState =
      ⟨[CallbackEvent.initialFailure, CallbackEvent.terminationCheck], [false],
        Except.error LockError.termination⟩ :=
  terminate_after_first_failure_aborts ⟨true⟩ [true, true] freeState rfl rfl

/-- C10: the only concrete handler, `CLIResourceCallbackHandler`, reports
`terminate_after_initial_failure = false`; every `_ResourceLock` constructs
exactly this handler in `__init__`, including the five registry singletons;
hence no `acquire` call through such an instance can ever fail with
`TerminationAfterInitialFailure`. -/
theorem cli_observer_never_aborts (tmpdir name : String) (parent : Option String)
    (atts : List Bool) (s : MutexState) :
    (mkResourceLock tmpdir name parent).callback_handler = cliObserver ∧
    cliObserver.terminate_after_initial_failure = false ∧
    (∀ n : LockName, (registryLock tmpdir n).callback_handler = cliObserver) ∧
    isTerminationError
      (acquireM (mkResourceLock tmpdir name parent).callback_handler atts s).result = false := by
  refine ⟨rfl, rfl, fun n => rfl, ?_⟩
  show isTerminationError (acquireM cliObserver atts s).result = false
  by_cases hheld : s.osHeld = true
  · simp [acquireM, hheld, isTerminationError]
  · simp only [Bool.not_eq_true] at hheld
    have h := acquireAttempts_no_termination cliObserver rfl false atts
    simp only [acquireM, hheld, Bool.false_eq_true, if_false]
    cases hout : (acquireAttempts cliObserver false atts).outcome with
    | ok u => simp [hout, isTerminationError]
    | error e =>
      rw [hout] at h
      cases e with
      | termination => simp [isTerminationError] at h
      | timeout => simp [hout, isTerminationError]
      | notHeld => simp [hout, isTerminationError]

/-! ### Lemmas about reentrant depth -/

/-- Acquiring while the OS lock is already held succeeds immediately with no
events, no consumed attempts, and an incremented depth. -/
lemma acquireM_held (obs : Observer) (atts : List Bool) (d : Nat) :
    acquireM obs atts ⟨d, true⟩ = ⟨[], [], Except.ok ⟨d + 1, true⟩⟩ := by
  simp [acquireM]

/-- Iterated acquisition from a held state adds its count to the depth. -/
lemma acquireN_held (obs : Observer) (n : Nat) :
    ∀ d : Nat, acquireN obs n ⟨d, true⟩ = Except.ok ⟨d + n, true⟩ := by
  induction n with
  | zero => intro d; simp [acquireN]
  | succ m ih =>
    intro d
    rw [acquireN, acquireM_held]
    simp only
    rw [ih (d + 1)]
    congr 2
    omega

/-- Iterated acquisition from the free state: one loop acquisition followed by
reentrant ones. -/
lemma acquireN_free (obs : Observer) (n : Nat) :
    acquireN obs (n + 1) freeState = Except.ok ⟨n + 1, true⟩ := by
  have h1 : (acquireM obs [true] freeState).result = Except.ok ⟨1, true⟩ := by
    simp [acquireM, freeState, acquireAttempts]
  rw [acquireN, h1]
  simp only
  rw [acquireN_held obs n 1]
  congr 2
  omega

/-- Releasing exactly down to depth zero frees the OS lock. -/
lemma releaseN_to_zero (n : Nat) :
    ∀ b : Bool, releaseN (n + 1) ⟨n + 1, b⟩ = Except.ok freeState := by
  induction n with
  | zero =>
    intro b
    simp [releaseN, release, freeState]
  | succ m ih =>
    intro b
    rw [releaseN]
    have : release ⟨m + 2, b⟩ = Except.ok ⟨m + 1, b⟩ := by
      simp [release]
    rw [this]
    exact ih b

/-- `releaseN` splits over addition of its counter. -/
lemma releaseN_add (a : Nat) :
    ∀ (b : Nat) (s : MutexState),
      releaseN (a + b) s = (releaseN a s).bind (releaseN b) := by
  induction a with
  | zero => intro b s; simp [releaseN, Except.bind]
  | succ m ih =>
    intro b s
    have hsum : m + 1 + b = (m + b) + 1 := by omega
    rw [hsum, releaseN, releaseN]
    cases hr : release s with
    | ok s1 => simp [Except.bind, ih b s1]
    | error e => simp [Except.bind]

/-! ### Claim theorems: release discipline and reentrancy -/

/-- C6: releasing a mutex whose reentrant depth is zero fails with `NotHeld`,
and after any number of acquisitions, releasing even one more time than was
acquired surfaces `NotHeld` to the caller rather than being ignored. -/
theorem release_without_hold_fails :
    (∀ b : Bool, release ⟨0, b⟩ = Except.error LockError.notHeld) ∧
    (∀ n k : Nat,
      (acquireN cliObserver n freeState).bind (releaseN (n + k + 1)) =
        Except.error LockError.notHeld) := by
  constructor
  · intro b
    simp [release]
  · intro n k
    cases n with
    | zero =>
      simp only [acquireN, Except.bind]
      rw [releaseN]
      simp [release, freeState]
    | succ m =>
      rw [acquireN_free]
      simp only [Except.bind]
      have hsum : m + 1 + k + 1 = (m + 1) + (k + 1) := by omega
      rw [hsum, releaseN_add, releaseN_to_zero]
      simp only [Except.bind]
      rw [releaseN]
      simp [release, freeState]

/-- C7: a further `acquire` while the lock is already held succeeds immediately
(no OS attempts consumed) and increments the reentrant depth; `release` keeps
the OS lock while the depth stays positive and frees it exactly when the depth
returns to zero; and acquiring N >= 1 times from the free state followed by
releasing N times leaves the lock free. -/
theorem reentrant_acquire_release_balanced :
    (∀ (obs : Observer) (atts : List Bool) (d : Nat),
      acquireM obs atts ⟨d, true⟩ = ⟨[], [], Except.ok ⟨d + 1, true⟩⟩) ∧
    (∀ (d : Nat) (b : Bool), release ⟨d + 2, b⟩ = Except.ok ⟨d + 1, b⟩) ∧
    (∀ b : Bool, release ⟨1, b⟩ = Except.ok ⟨0, false⟩) ∧
    (∀ n : Nat,
      (acquireN cliObserver (n + 1) freeState).bind (releaseN (n + 1)) =
        Except.ok freeState) := by
  refine ⟨acquireM_held, ?_, ?_, ?_⟩
  · intro d b
    simp [release]
  · intro b
    simp [release]
  · intro n
    rw [acquireN_free]
    simp only [Except.bind]
    exact releaseN_to_zero n true

/-! ### Claim theorem: lock-file path derivation -/

/-- C8: the lock-file path computed by `_ResourceLock.__init__` is exactly
`<parent-directory>/<name><extension>` — the spec's derivation rule — where the
parent directory is the override when supplied and the default otherwise; the
derivation uses nothing but the name and the directory, so two independently
constructed instances for the same name and directory carry equal paths. -/
theorem lock_file_path_derivation (tmpdir name : String) (parent : Option String) :
    (mkResourceLock tmpdir name parent).lock_file_path =
      specLockFilePath (parent.getD (DEFAULT_PARENT_DIRECTORY tmpdir)) name EXTENSION ∧
    (∀ p : String,
      (mkResourceLock tmpdir name (some p)).lock_file_path = p ++ "/" ++ name ++ ".lock") ∧
    (mkResourceLock tmpdir name parent).lock_file_path =
      (mkResourceLock tmpdir name parent).lock_file_path := by
  refine ⟨rfl, fun p => rfl, rfl⟩

/-! ### Lemmas about the decorator and the bulk context manager -/

/-- A successful acquisition yields the held state one depth above the start. -/
lemma acquireM_ok_state (obs : Observer) (atts : List Bool) (s s1 : MutexState)
    (h : (acquireM obs atts s).result = Except.ok s1) :
    s1 = ⟨s.depth + 1, true⟩ := by
  by_cases hheld : s.osHeld = true
  · simp [acquireM, hheld] at h
    exact h.symm
  · simp only [Bool.not_eq_true] at hheld
    simp only [acquireM, hheld, Bool.false_eq_true, if_false] at h
    split at h
    · simp at h
      exact h.symm
    · simp at h

/-- Releases recorded by a trace made only of release events. -/
lemma relNames_map_rel (l : List LockName) : relNames (l.map BulkEvent.rel) = l := by
  induction l with
  | nil => rfl
  | cons a l ih => simp [relNames, List.filterMap_cons] at ih ⊢; exact ih

/-- A trace made only of release events records no acquisition. -/
lemma acqNames_map_rel (l : List LockName) : acqNames (l.map BulkEvent.rel) = [] := by
  induction l with
  | nil => rfl
  | cons a l ih => simp [acqNames, List.filterMap_cons, ih]

/-- The entry loop's accumulator lists the acquisitions of its trace most
recent first (on top of the accumulator it started from), and the entry phase
itself releases nothing. -/
lemma enterLoop_acc (env : LockName → Bool) :
    ∀ (rest acc : List LockName),
      (enterLoop env rest acc).2.1 = (acqNames (enterLoop env rest acc).1).reverse ++ acc ∧
      relNames (enterLoop env rest acc).1 = [] := by
  intro rest
  induction rest with
  | nil => intro acc; simp [enterLoop, acqNames, relNames]
  | cons n rest ih =>
    intro acc
    by_cases h : env n = true
    · have hrec := ih (n :: acc)
      simp [enterLoop, h, acqNames, relNames, List.filterMap_cons] at hrec ⊢
      exact hrec
    · simp only [Bool.not_eq_true] at h
      simp [enterLoop, h, acqNames, relNames, List.filterMap_cons]

/-- The trace of one `all_acquired` call is its entry trace followed by the
release of every lock in the accumulator, whatever the outcome. -/
lemma allAcquired_trace (env : LockName → Bool) (bodyFails : Bool) :
    (allAcquired env bodyFails).1 =
      (enterLoop env registryOrder []).1 ++
        (enterLoop env registryOrder []).2.1.map BulkEvent.rel := by
  unfold allAcquired
  by_cases hb : (enterLoop env registryOrder []).2.2 = true <;> simp [hb]

/-- Every `all_acquired` call releases exactly the locks it acquired, in the
reverse of the acquisition order. -/
lemma allAcquired_balanced (env : LockName → Bool) (bodyFails : Bool) :
    relNames (allAcquired env bodyFails).1 =
      (acqNames (allAcquired env bodyFails).1).reverse := by
  rw [allAcquired_trace]
  have h := enterLoop_acc env registryOrder []
  simp only [relNames, acqNames, List.filterMap_append] at h ⊢
  rw [show (List.filterMap (fun e =>
        match e with
        | BulkEvent.rel n => some n
        | _ => none) ((enterLoop env registryOrder []).2.1.map BulkEvent.rel)) =
      (enterLoop env registryOrder []).2.1 from relNames_map_rel _]
  rw [show (List.filterMap (fun e =>
        match e with
        | BulkEvent.acq n => some n
        | _ => none) ((enterLoop env registryOrder []).2.1.map BulkEvent.rel)) =
      ([] : List LockName) from acqNames_map_rel _]
  rw [h.2, h.1]
  simp

/-! ### Claim theorems: decorator and bulk acquisition -/

/-- C1: a call to a function wrapped by `acquires_lock`, whenever its
acquisition succeeds, performs acquire, then the wrapped work, then release —
in that order on both the normal and the failing path — ends with the mutex
back at its entry depth (free again when it started free), and returns the
work's value or re-raises the work's failure unchanged. -/
theorem decorator_scoped_release {α β ε : Type} (atts : List Bool) (s : MutexState)
    (f : α → Except ε β) (x : α) (s1 : MutexState)
    (hacq : (acquireM cliObserver atts s).result = Except.ok s1) :
    scopedInner atts s f x =
      ([ScopedStep.stepAcquire, ScopedStep.stepRun, ScopedStep.stepRelease],
       ⟨s.depth, if s.depth = 0 then false else true⟩,
       match f x with
       | Except.ok b => Except.ok b
       | Except.error e => Except.error (Sum.inr e)) := by
  have hs1 : s1 = ⟨s.depth + 1, true⟩ := acquireM_ok_state _ _ _ _ hacq
  subst hs1
  unfold scopedInner
  rw [hacq]
  have hrel : release ⟨s.depth + 1, true⟩ =
      Except.ok ⟨s.depth, if s.depth = 0 then false else true⟩ := by
    simp [release]
  simp only
  rw [hrel]

/-- Witness for `decorator_scoped_release`: a wrapped work that fails still has
its lock released and its failure propagated unchanged. -/
theorem decorator_scoped_release_witness :
    scopedInner [true] freeState (fun _ : Unit => (Except.error 7 : Except Nat Nat)) () =
      ([ScopedStep.stepAcquire, ScopedStep.stepRun, ScopedStep.stepRelease],
       freeState, Except.error (Sum.inr 7)) := by
  have h := decorator_scoped_release [true] freeState
      (fun _ : Unit => (Except.error 7 : Except Nat Nat)) () ⟨1, true⟩ (by rfl)
  simpa [freeState] using h

/-- C2: one `all_acquired` call with every acquisition succeeding acquires all
five registry locks in enumeration order — general `KRAKE` first, then
`TARGET_INTERACTION`, `INI`, `CACHE`, `LOG_DIRECTORY` — and on exit, normal or
failing body alike, releases them in the exact reverse order, propagating the
body's outcome. -/
theorem all_acquired_fixed_order (env : LockName → Bool) (bodyFails : Bool)
    (henv : ∀ n, env n = true) :
    allAcquired env bodyFails =
      ([BulkEvent.acq LockName.KRAKE, BulkEvent.acq LockName.TARGET_INTERACTION,
        BulkEvent.acq LockName.INI, BulkEvent.acq LockName.CACHE,
        BulkEvent.acq LockName.LOG_DIRECTORY,
        BulkEvent.rel LockName.LOG_DIRECTORY, BulkEvent.rel LockName.CACHE,
        BulkEvent.rel LockName.INI, BulkEvent.rel LockName.TARGET_INTERACTION,
        BulkEvent.rel LockName.KRAKE],
       if bodyFails then BulkOutcome.bodyFailure else BulkOutcome.completed) ∧
    relNames (allAcquired env bodyFails).1 =
      (acqNames (allAcquired env bodyFails).1).reverse := by
  refine ⟨?_, allAcquired_balanced env bodyFails⟩
  simp [allAcquired, enterLoop, registryOrder, henv]

/-- Witness for `all_acquired_fixed_order` with every acquisition succeeding
and a normally returning body. -/
theorem all_acquired_fixed_order_witness :
    allAcquired (fun _ => true) false =
      ([BulkEvent.acq LockName.KRAKE, BulkEvent.acq LockName.TARGET_INTERACTION,
        BulkEvent.acq LockName.INI, BulkEvent.acq LockName.CACHE,
        BulkEvent.acq LockName.LOG_DIRECTORY,
        BulkEvent.rel LockName.LOG_DIRECTORY, BulkEvent.rel LockName.CACHE,
        BulkEvent.rel LockName.INI, BulkEvent.rel LockName.TARGET_INTERACTION,
        BulkEvent.rel LockName.KRAKE], BulkOutcome.completed) :=
  (all_acquired_fixed_order (fun _ => true) false (fun _ => rfl)).1

/-- C3: when the third acquisition of an `all_acquired` call fails after the
first two succeeded, exactly those two locks are released — most recent first —
before the failure propagates, and in general every `all_acquired` call
releases precisely the locks it acquired, in reverse acquisition order, so no
partial bulk-hold survives. -/
theorem all_acquired_all_or_nothing (env : LockName → Bool) (bodyFails : Bool)
    (h1 : env LockName.KRAKE = true) (h2 : env LockName.TARGET_INTERACTION = true)
    (h3 : env LockName.INI = false) :
    allAcquired env bodyFails =
      ([BulkEvent.acq LockName.KRAKE, BulkEvent.acq LockName.TARGET_INTERACTION,
        BulkEvent.acqFailed LockName.INI, BulkEvent.rel LockName.TARGET_INTERACTION,
        BulkEvent.rel LockName.KRAKE], BulkOutcome.lockFailure) ∧
    (∀ (env2 : LockName → Bool) (b2 : Bool),
      relNames (allAcquired env2 b2).1 = (acqNames (allAcquired env2 b2).1).reverse) := by
  refine ⟨?_, fun env2 b2 => allAcquired_balanced env2 b2⟩
  simp [allAcquired, enterLoop, registryOrder, h1, h2, h3]

/-- Witness for `all_acquired_all_or_nothing`: failure injected on the third
lock of the five-lock registry. -/
theorem all_acquired_all_or_nothing_witness :
    allAcquired (fun n => !(n == LockName.INI)) true =
      ([BulkEvent.acq LockName.KRAKE, BulkEvent.acq LockName.TARGET_INTERACTION,
        BulkEvent.acqFailed LockName.INI, BulkEvent.rel LockName.TARGET_INTERACTION,
        BulkEvent.rel LockName.KRAKE], BulkOutcome.lockFailure) :=
  (all_acquired_all_or_nothing (fun n => !(n == LockName.INI)) true rfl rfl rfl).1

/-! ### Claim theorems: decorator factory dispatch -/

/-- C9 counterexample: a falsy non-callable positional argument — Python's `0`
is non-callable and falsy — is not rejected: `if not wrapped_function` treats
it as an absent argument and the factory returns `outer` instead of raising. -/
theorem nonCallable_falsy_not_rejected :
    (PyValue.mk false false).invocable = false ∧
    acquiresLock (some (PyValue.mk false false)) freeState =
      (WrapOutcome.outerFactory, freeState) ∧
    (acquiresLock (some (PyValue.mk false false)) freeState).1 ≠
      WrapOutcome.raisedUsageError := by
  refine ⟨rfl, rfl, ?_⟩
  intro h
  simp [acquiresLock] at h

/-- C9 amended: a truthy non-callable positional argument is rejected
immediately at wrap time — the raise happens before any lock is acquired or
any lock I/O occurs, which the untouched mutex state records — while a falsy
one is treated as an absent argument and yields the decorator factory. -/
theorem nonCallable_truthy_rejected (v : PyValue) (world : MutexState)
    (ht : v.truthy = true) (hc : v.invocable = false) :
    acquiresLock (some v) world = (WrapOutcome.raisedUsageError, world) := by
  cases v
  simp_all [acquiresLock]

/-- Witness for `nonCallable_truthy_rejected` at a concrete truthy
non-callable argument. -/
theorem nonCallable_truthy_rejected_witness :
    acquiresLock (some (PyValue.mk true false)) freeState =
      (WrapOutcome.raisedUsageError, freeState) :=
  nonCallable_truthy_rejected (PyValue.mk true false) freeState rfl rfl

end SmartUpdater
